import Mathlib

/-
Verification of the bisect session controller and output stream parser of
xbisect (src/main.go, function RunBisect and its helpers).

The Go code scans the stdout of a child process line by line and matches
each (TrimSpace-d) line against fixed regular expressions.  This file
embeds those regular expressions as executable character-list matchers
with the same matching semantics (the patterns are simple enough that
leftmost-first matching needs no backtracking), embeds the scanner loop
as a state-transition function, and embeds the surrounding RunBisect
control flow as a function from an environment of external-command
outcomes to a success flag plus a trace of performed external actions.
-/

set_option maxRecDepth 10000

/-- Character list of a string; the Go code works on raw bytes of a
scanner line, modelled here as the list of characters. -/
def chars (s : String) : List Char := s.data

/-- Match a literal piece of a regular expression at the front of the
input, returning the remainder on success. -/
def dropPre : List Char → List Char → Option (List Char)
  | [], s => some s
  | _ :: _, [] => none
  | p :: ps, c :: cs => if c = p then dropPre ps cs else none

/-- The character class of the Go pattern [a-zA-Z0-9_-]
(kAlphanumericDashUnderlineRe and the step field of statusMatchRe). -/
def identChar (c : Char) : Bool := c.isAlphanum || c = '_' || c = '-'

/-- White space removed by strings.TrimSpace, as it applies to the code
points that can occur on a scanner line. -/
def goSpace (c : Char) : Bool :=
  c = ' ' || c = '\t' || c = '\n' || c = '\x0b' || c = '\x0c' || c = '\r' ||
  c = '\x85' || c = '\xa0'

/-- strings.TrimSpace: drop white space from both ends. -/
def trimSpace (l : List Char) : List Char :=
  ((l.dropWhile goSpace).reverse.dropWhile goSpace).reverse

/-- Match the regular-expression piece [0-9]+ at the front of the input
(greedy, at least one digit), returning the remainder. -/
def takeDigits1 (s : List Char) : Option (List Char) :=
  if s.takeWhile Char.isDigit = [] then none else some (s.dropWhile Char.isDigit)

/-- The Go progress-announcement check
regexp.MatchString("^Bisecting: [0-9]+ revision(s)? left to test after
this \\(roughly [0-9]+ step(s)?\\)$", line): anchored at both ends, so it
holds exactly of full matches of the pattern. -/
def announceMatch (l : List Char) : Bool :=
  match dropPre (chars "Bisecting: ") l with
  | none => false
  | some r1 =>
    match takeDigits1 r1 with
    | none => false
    | some r2 =>
      match dropPre (chars " revision") r2 with
      | none => false
      | some r3 =>
        let r4 := match r3 with | 's' :: t => t | _ => r3
        match dropPre (chars " left to test after this (roughly ") r4 with
        | none => false
        | some r5 =>
          match takeDigits1 r5 with
          | none => false
          | some r6 =>
            match dropPre (chars " step") r6 with
            | none => false
            | some r7 =>
              let r8 := match r7 with | 's' :: t => t | _ => r7
              decide (r8 = [')'])

/-- The optional trailing group ( res=[0-9]+)? of statusMatchRe: the
submatch text when the group participates (greedy), and the empty string
when it does not. -/
def optRes (s : List Char) : List Char :=
  match dropPre (chars " res=") s with
  | none => []
  | some r =>
    if r.takeWhile Char.isDigit = [] then []
    else chars " res=" ++ r.takeWhile Char.isDigit

/-- One attempt of statusMatchRe
(xbisect step=([a-zA-Z0-9_-]+) (PASS|FAIL)( res=[0-9]+)?) anchored at the
start of the input: returns the three submatches (step name, PASS?, raw
optional-group text).  The pattern needs no backtracking: the step class
never contains a space, so the greedy name run is forced. -/
def statusAt (s : List Char) : Option (List Char × Bool × List Char) :=
  match dropPre (chars "xbisect step=") s with
  | none => none
  | some r =>
    let nm := r.takeWhile identChar
    if nm = [] then none
    else
      match dropPre (chars " PASS") (r.dropWhile identChar) with
      | some r4 => some (nm, true, optRes r4)
      | none =>
        match dropPre (chars " FAIL") (r.dropWhile identChar) with
        | some r4 => some (nm, false, optRes r4)
        | none => none

/-- statusMatchRe.FindStringSubmatch: leftmost match of the unanchored
pattern. -/
def findStatus : List Char → Option (List Char × Bool × List Char)
  | [] => none
  | c :: rest =>
    match statusAt (c :: rest) with
    | some m => some m
    | none => findStatus rest

/-- Longest split of the input as g ++ "] " ++ rest, returning g; this is
the greedy capture of hashLineRe once the leading bracket is consumed. -/
def lastBracketSplit : List Char → Option (List Char)
  | [] => none
  | c :: rest =>
    match lastBracketSplit rest with
    | some g => some (c :: g)
    | none =>
      if c = ']' then
        match rest with
        | ' ' :: _ => some []
        | _ => none
      else none

/-- hashLineRe.FindStringSubmatch with pattern ^\[(.*)\] .*$ (anchored,
greedy): the single capture group of the full-line match, if any.
Scanner lines never contain a newline, so the dot class is unrestricted
here. -/
def hashCapture (l : List Char) : Option (List Char) :=
  match l with
  | '[' :: t => lastBracketSplit t
  | _ => none

/-- One attempt of resMatchRe (res=([0-9]+)) anchored at the start of the
input. -/
def resAt (s : List Char) : Option (List Char) :=
  match dropPre (chars "res=") s with
  | none => none
  | some r =>
    if r.takeWhile Char.isDigit = [] then none else some (r.takeWhile Char.isDigit)

/-- resMatchRe.FindStringSubmatch: leftmost match, returning the digit
capture. -/
def findRes : List Char → Option (List Char)
  | [] => none
  | c :: rest =>
    match resAt (c :: rest) with
    | some d => some d
    | none => findRes rest

/-- Numeric value of a decimal digit string. -/
def digitsVal (ds : List Char) : Nat :=
  ds.foldl (fun a c => a * 10 + (c.toNat - 48)) 0

/-- Largest value representable in a Go int (64 bits, signed). -/
def kMaxInt : Nat := 9223372036854775807

/-- strconv.Atoi on the all-digit capture of resMatchRe: the value, or a
range error when it does not fit in a Go int. -/
def atoiDigits (ds : List Char) : Except Unit Int :=
  if digitsVal ds ≤ kMaxInt then Except.ok (Int.ofNat (digitsVal ds))
  else Except.error ()

/-- The closure _get_exit_status of RunBisect: empty optional group means
status 0; otherwise re-find res=<digits> inside it and Atoi the digits. -/
def getExitStatus (data : List Char) : Except Unit Int :=
  if data = [] then Except.ok 0
  else
    match findRes data with
    | none => Except.error ()
    | some ds => atoiDigits ds

/-- Step-name validation of RunBisect:
regexp.MatchString(kAlphanumericDashUnderlineRe, step), a full match of
^[a-zA-Z0-9_-]+$. -/
def stepNameValid (s : String) : Bool :=
  !(s.data.isEmpty) && s.data.all identChar

/-- The fixed first line every wrapper invocation prints (also hard-coded
in the parser of RunBisect). -/
def kRunningLiteral : String := "Running bisect on current hash"

/-- StepResult of RunBisect: one parsed status marker. -/
structure StepResult where
  name : String
  pass : Bool
  exitStatus : Int
deriving DecidableEq, Repr

/-- CommitResult of RunBisect: a revision identifier with the step
results attached to it, in arrival order. -/
structure CommitResult where
  hash : String
  stepResults : List StepResult
deriving DecidableEq, Repr

/-- The four ways the scanner loop of RunBisect sets scan_succeed to
false, one per console error message. -/
inductive ScanError where
  | parseStatus
  | resultBeforeHash
  | malformedHashLine
  | duplicateCommit (h : String)
deriving DecidableEq, Repr

/-- The loop state of the scanner in RunBisect.  commit_results is a Go
map from hash to a mutable CommitResult; it is modelled as an association
list in insertion order (the map itself carries no order, see the
reporter model), and current_result, a pointer into that map, as the key
it points at. -/
structure ParseState where
  linesUntilHash : Int
  results : List (String × CommitResult)
  current : Option String
  nbFromRegex : Nat
  nbFromLine : Nat
deriving DecidableEq, Repr

/-- Initial scanner state: lines_until_hash = 0, empty map, nil
current_result, both counters zero. -/
def initState : ParseState := ⟨0, [], none, 0, 0⟩

/-- Appending a StepResult to the CommitResult the current pointer
designates mutates that entry of the map in place. -/
def appendStep (rs : List (String × CommitResult)) (h : String) (st : StepResult) :
    List (String × CommitResult) :=
  rs.map (fun p => if p.1 = h then (p.1, ⟨p.2.hash, p.2.stepResults ++ [st]⟩) else p)

/-- Membership test of the Go map commit_results. -/
def lookupCR (rs : List (String × CommitResult)) (h : String) :
    Option (String × CommitResult) :=
  rs.find? (fun p => p.1 = h)

/-- Tail of the loop body: if current_hash_from_line is non-empty, check
for a duplicate, then open a fresh CommitResult and point current_result
at it. -/
def openResolved (g : List Char) (luh : Int) (results : List (String × CommitResult))
    (current : Option String) (nbRegex nbLine : Nat) : ParseState × Option ScanError :=
  if g = [] then (⟨luh, results, current, nbRegex, nbLine⟩, none)
  else if (lookupCR results (String.mk g)).isSome then
    (⟨luh, results, current, nbRegex, nbLine⟩,
      some (ScanError.duplicateCommit (String.mk g)))
  else
    (⟨luh, results ++ [(String.mk g, ⟨String.mk g, []⟩)],
      some (String.mk g), nbRegex, nbLine⟩, none)

/-- Middle of the loop body: resolve current_hash_from_line, either from
the line following an announcement (lines_until_hash reached 0) or, for
the very first time only, from the fixed literal using the pre-resolved
initial commit hash. -/
def resolveHash (initial : String) (line : List Char) (luh : Int)
    (results : List (String × CommitResult)) (current : Option String)
    (nbRegex nbLine : Nat) : ParseState × Option ScanError :=
  if luh = 0 then
    match hashCapture line with
    | none => (⟨luh, results, current, nbRegex, nbLine⟩, some ScanError.malformedHashLine)
    | some g => openResolved g luh results current (nbRegex + 1) nbLine
  else if line = chars kRunningLiteral then
    let g := if nbRegex = 0 ∧ nbLine = 0 then initial.data else []
    openResolved g luh results current nbRegex (nbLine + 1)
  else
    openResolved [] luh results current nbRegex nbLine

/-- One iteration of the scanner loop of RunBisect on one raw line:
decrement lines_until_hash, trim the line, run the
announcement / status-marker branch chain, then the hash-resolution
block.  A returned error is the loop breaking with scan_succeed =
false, carrying the state as it stands at the break. -/
def processLine (initial : String) (s : ParseState) (rawLine : String) :
    ParseState × Option ScanError :=
  let luh := s.linesUntilHash - 1
  let line := trimSpace rawLine.data
  if announceMatch line then
    resolveHash initial line 1 s.results s.current s.nbFromRegex s.nbFromLine
  else
    match findStatus line with
    | some (nm, ps, g3) =>
      match getExitStatus g3 with
      | Except.error _ =>
        (⟨luh, s.results, s.current, s.nbFromRegex, s.nbFromLine⟩, some ScanError.parseStatus)
      | Except.ok es =>
        match s.current with
        | none =>
          (⟨luh, s.results, s.current, s.nbFromRegex, s.nbFromLine⟩,
            some ScanError.resultBeforeHash)
        | some h =>
          resolveHash initial line luh
            (appendStep s.results h ⟨String.mk nm, ps, es⟩) (some h)
            s.nbFromRegex s.nbFromLine
    | none =>
      resolveHash initial line luh s.results s.current s.nbFromRegex s.nbFromLine

/-- The scanner loop over a whole line stream; an error stops consumption
at the offending line, like the break in the Go loop. -/
def runScanner (initial : String) : ParseState → List String → ParseState × Option ScanError
  | s, [] => (s, none)
  | s, l :: ls =>
    match processLine initial s l with
    | (s1, none) => runScanner initial s1 ls
    | (s1, some e) => (s1, some e)

/-- Console color codes of src/main.go. -/
def kColorRed : String := "\x1b[31m"

/-- Green color code. -/
def kColorGreen : String := "\x1b[32m"

/-- Cyan color code. -/
def kColorCyan : String := "\x1b[36m"

/-- Gray color code. -/
def kColorGray : String := "\x1b[37m"

/-- Bold font code. -/
def kFontBold : String := "\x1b[1m"

/-- Console reset code. -/
def kConsoleReset : String := "\x1b[0m"

/-- The reserved bisect skip exit code. -/
def kBisectSkipCode : Int := 125

/-- The success_log closure of the reporter loop in RunBisect: PASS when
the step passed, SKIP when it failed with the reserved skip code, FAIL
otherwise. -/
def success_log (step : StepResult) : String :=
  if step.pass then kFontBold ++ kColorGreen ++ "PASS" ++ kConsoleReset
  else if step.exitStatus = kBisectSkipCode then kFontBold ++ kColorGray ++ "SKIP" ++ kConsoleReset
  else kFontBold ++ kColorRed ++ "FAIL" ++ kConsoleReset

/-- The report lines for one map entry: one (hash, styled step name,
status label) triple per step result, in order. -/
def reportEntryLines (p : String × CommitResult) : List (String × String × String) :=
  p.2.stepResults.map (fun st => (p.1, kColorCyan ++ st.name ++ kConsoleReset, success_log st))

/-- The reporter loop of RunBisect over an enumeration of the
commit_results map.  Go does not specify a range order over a map, so
the enumeration handed to this function is any permutation of the
entries. -/
def reportLines (entries : List (String × CommitResult)) : List (String × String × String) :=
  entries.flatMap reportEntryLines

/-- The PASS marker line the generated wrapper prints for a step. -/
def passMarker (n : String) : String := "xbisect step=" ++ n ++ " PASS"

/-- The FAIL marker line the generated wrapper prints for a step, with
the decimal exit status text. -/
def failMarker (n : String) (res : String) : String :=
  "xbisect step=" ++ n ++ " FAIL res=" ++ res

/-- Semantics of the wrapper script assembled by _wrap_step in RunBisect.
For each step in order the script runs the verification script with the
step name as sole argument and captures its exit status in RESULT; if
RESULT is zero it echoes the PASS marker and falls through to the next
block, otherwise it echoes the FAIL marker with res=RESULT and runs
exit RESULT, so no later block executes.  The input pairs each step name
with the exit status its verification invocation would produce; the
output is (marker lines printed, wrapper exit status, steps actually
run). -/
def runWrapper : List (String × Nat) → List String × Nat × List String
  | [] => ([], 0, [])
  | (s, r) :: rest =>
    if r = 0 then
      let t := runWrapper rest
      (passMarker s :: t.1, t.2.1, s :: t.2.2)
    else ([failMarker s (toString r)], r, [s])

/-- Externally observable actions of RunBisect, in order of appearance in
the source: cache staging, the chmod of the generated scripts, the git
bisect session commands, the rev-parse of the starting hash, the launch
and wait of the child, and the deferred git bisect reset teardown. -/
inductive Ev where
  | mkdirCache
  | copyRepo
  | chmodScript
  | gitReset
  | gitStart
  | gitGood
  | gitBad
  | revParse
  | chmodWrapper
  | launchChild
  | waitChild
  | teardownReset
deriving DecidableEq, Repr

/-- Outcomes of the external operations RunBisect performs, fixed up
front so the control flow becomes a pure function.  childExit models
cmd.Wait: none is a wait failure, some 0 a clean exit (Wait returns nil),
and some n with n nonzero an exit with status n, for which Go's Wait
returns a non-nil ExitError. -/
structure Env where
  repoExists : Bool
  mkdirOk : Bool
  copyOk : Bool
  tmpfileOk : Bool
  scriptWriteOk : Bool
  resetOk : Bool
  startOk : Bool
  goodOk : Bool
  badOk : Bool
  revParseOut : Option String
  wrapperWriteOk : Bool
  pipeOk : Bool
  childStartOk : Bool
  childLines : List String
  childExit : Option Nat
deriving DecidableEq, Repr

/-- The initial commit hash RunBisect pre-resolves before launching the
child: the TrimSpace-d rev-parse output. -/
def initialHashOf (e : Env) : String :=
  match e.revParseOut with
  | some out => String.mk (trimSpace out.data)
  | none => ""

/-- The scanner outcome of a run: final state and error of the loop over
the child's stdout lines, started from the pre-resolved hash. -/
def scanResultOf (e : Env) : ParseState × Option ScanError :=
  runScanner (initialHashOf e) initState e.childLines

/-- The guard around the rev-parse of the starting hash: RunBisect
returns false when the command errored or printed nothing. -/
def revParseFailed (e : Env) : Bool :=
  match e.revParseOut with
  | none => true
  | some out => decide (out.data = [])

/-- cmd.Wait of the child: it returns a non-nil error (and RunBisect then
returns false) exactly when waiting itself failed or the child exited
with a nonzero status; a clean zero exit returns nil. -/
def waitFailed (e : Env) : Bool :=
  match e.childExit with
  | some 0 => false
  | _ => true

/-- The trace prefix of a run that reached the rev-parse of the starting
hash: staging, script chmod, the four git bisect session commands, and
the rev-parse itself. -/
def kTracePre : List Ev :=
  [Ev.mkdirCache, Ev.copyRepo, Ev.chmodScript, Ev.gitReset, Ev.gitStart,
    Ev.gitGood, Ev.gitBad, Ev.revParse]

/-- The control flow of RunBisect: every early return of the source is a
branch here, in source order, and the deferred git bisect reset -
registered only after the session commands and the rev-parse succeed -
is appended to the trace of every later exit path.  Returns the success
flag of RunBisect and the trace of performed external actions. -/
def runBisectModel (steps : List String) (e : Env) : Bool × List Ev :=
  if e.repoExists = false then (false, [])
  else if steps = [] then (false, [])
  else if steps.all stepNameValid = false then (false, [])
  else if e.mkdirOk = false then (false, [Ev.mkdirCache])
  else if e.copyOk = false then (false, [Ev.mkdirCache, Ev.copyRepo])
  else if e.tmpfileOk = false then (false, [Ev.mkdirCache, Ev.copyRepo])
  else if e.scriptWriteOk = false then (false, [Ev.mkdirCache, Ev.copyRepo])
  else if e.resetOk = false then
    (false, [Ev.mkdirCache, Ev.copyRepo, Ev.chmodScript, Ev.gitReset])
  else if e.startOk = false then
    (false, [Ev.mkdirCache, Ev.copyRepo, Ev.chmodScript, Ev.gitReset, Ev.gitStart])
  else if e.goodOk = false then
    (false, [Ev.mkdirCache, Ev.copyRepo, Ev.chmodScript, Ev.gitReset, Ev.gitStart, Ev.gitGood])
  else if e.badOk = false then
    (false, [Ev.mkdirCache, Ev.copyRepo, Ev.chmodScript, Ev.gitReset, Ev.gitStart,
      Ev.gitGood, Ev.gitBad])
  else if revParseFailed e = true then (false, kTracePre)
  else if e.wrapperWriteOk = false then (false, kTracePre ++ [Ev.teardownReset])
  else if e.pipeOk = false then (false, kTracePre ++ [Ev.chmodWrapper, Ev.teardownReset])
  else if e.childStartOk = false then
    (false, kTracePre ++ [Ev.chmodWrapper, Ev.teardownReset])
  else if (scanResultOf e).2.isSome = true then
    (false, kTracePre ++ [Ev.chmodWrapper, Ev.launchChild, Ev.teardownReset])
  else if waitFailed e = true then
    (false, kTracePre ++ [Ev.chmodWrapper, Ev.launchChild, Ev.waitChild, Ev.teardownReset])
  else
    (true, kTracePre ++ [Ev.chmodWrapper, Ev.launchChild, Ev.waitChild, Ev.teardownReset])

theorem dropPre_append (p r : List Char) : dropPre p (p ++ r) = some r := by
  induction p with
  | nil => rfl
  | cons c cs ih => simp [dropPre, ih]

theorem takeWhile_eq_self_of_all (p : Char → Bool) (l : List Char) (h : l.all p = true) :
    l.takeWhile p = l := by
  induction l with
  | nil => rfl
  | cons c t ih =>
    simp only [List.all_cons, Bool.and_eq_true] at h
    simp [List.takeWhile_cons, h.1, ih h.2]

theorem takeWhile_append_stop (p : Char → Bool) (l : List Char) (c : Char) (t : List Char)
    (hl : l.all p = true) (hc : p c = false) :
    (l ++ c :: t).takeWhile p = l := by
  induction l with
  | nil => simp [List.takeWhile_cons, hc]
  | cons a l ih =>
    simp only [List.all_cons, Bool.and_eq_true] at hl
    simp [List.takeWhile_cons, hl.1, ih hl.2]

theorem dropWhile_append_stop (p : Char → Bool) (l : List Char) (c : Char) (t : List Char)
    (hl : l.all p = true) (hc : p c = false) :
    (l ++ c :: t).dropWhile p = c :: t := by
  induction l with
  | nil => simp [List.dropWhile_cons, hc]
  | cons a l ih =>
    simp only [List.all_cons, Bool.and_eq_true] at hl
    simp [List.dropWhile_cons, hl.1, ih hl.2]

theorem dropWhile_eq_self_of_head (p : Char → Bool) (l : List Char)
    (h : ∀ c, l.head? = some c → p c = false) : l.dropWhile p = l := by
  cases l with
  | nil => rfl
  | cons c t => simp [List.dropWhile_cons, h c rfl]

theorem trimSpace_eq_self (l : List Char)
    (h1 : ∀ c, l.head? = some c → goSpace c = false)
    (h2 : ∀ c, l.getLast? = some c → goSpace c = false) : trimSpace l = l := by
  unfold trimSpace
  rw [dropWhile_eq_self_of_head _ _ h1]
  rw [dropWhile_eq_self_of_head _ _ (fun c hc => h2 c (by rwa [List.head?_reverse] at hc))]
  exact List.reverse_reverse l

theorem runScanner_append (i : String) (s : ParseState) (xs ys : List String) :
    runScanner i s (xs ++ ys) =
      match runScanner i s xs with
      | (s1, none) => runScanner i s1 ys
      | (s1, some e) => (s1, some e) := by
  induction xs generalizing s with
  | nil => simp [runScanner]
  | cons x xs ih =>
    simp only [List.cons_append, runScanner]
    rcases h : processLine i s x with ⟨s1, e⟩
    cases e <;> simp [ih]

theorem space_not_digit (c : Char) (h : goSpace c = true) : c.isDigit = false := by
  simp only [goSpace, Bool.or_eq_true, decide_eq_true_eq] at h
  rcases h with (((((((h|h)|h)|h)|h)|h)|h)|h) <;> subst h <;> decide

theorem space_not_ident (c : Char) (h : goSpace c = true) : identChar c = false := by
  simp only [goSpace, Bool.or_eq_true, decide_eq_true_eq] at h
  rcases h with (((((((h|h)|h)|h)|h)|h)|h)|h) <;> subst h <;> decide

theorem digit_not_space (c : Char) (h : c.isDigit = true) : goSpace c = false := by
  rcases hg : goSpace c with _|_
  · rfl
  · rw [space_not_digit c hg] at h
    exact absurd h (by decide)

theorem ident_not_space (c : Char) (h : identChar c = true) : goSpace c = false := by
  rcases hg : goSpace c with _|_
  · rfl
  · rw [space_not_ident c hg] at h
    exact absurd h (by decide)

theorem ident_not_spaceChar (c : Char) (h : identChar c = true) : c ≠ ' ' := by
  intro hc
  subst hc
  exact absurd h (by decide)

theorem findStatus_of_statusAt (c : Char) (t : List Char) (m : List Char × Bool × List Char)
    (h : statusAt (c :: t) = some m) : findStatus (c :: t) = some m := by
  simp [findStatus, h]

theorem statusAt_passMarker (n : List Char) (hne : n ≠ []) (hid : n.all identChar = true) :
    statusAt (chars "xbisect step=" ++ n ++ chars " PASS") = some (n, true, []) := by
  unfold statusAt
  rw [List.append_assoc, dropPre_append]
  have hstop : (n ++ chars " PASS").takeWhile identChar = n := by
    have : chars " PASS" = ' ' :: chars "PASS" := rfl
    rw [this]
    exact takeWhile_append_stop identChar n ' ' (chars "PASS") hid (by decide)
  have hdrop : (n ++ chars " PASS").dropWhile identChar = chars " PASS" := by
    have : chars " PASS" = ' ' :: chars "PASS" := rfl
    rw [this]
    exact dropWhile_append_stop identChar n ' ' (chars "PASS") hid (by decide)
  simp only [hstop, hdrop]
  rw [if_neg hne]
  have hd : dropPre (chars " PASS") (chars " PASS") = some [] := by
    have h0 := dropPre_append (chars " PASS") []
    rwa [List.append_nil] at h0
  rw [hd]
  rfl

theorem statusAt_failMarker (n ds : List Char) (hne : n ≠ []) (hid : n.all identChar = true)
    (hdne : ds ≠ []) (hds : ds.all Char.isDigit = true) :
    statusAt (chars "xbisect step=" ++ n ++ chars " FAIL res=" ++ ds)
      = some (n, false, chars " res=" ++ ds) := by
  unfold statusAt
  have hassoc : chars "xbisect step=" ++ n ++ chars " FAIL res=" ++ ds
      = chars "xbisect step=" ++ (n ++ (chars " FAIL res=" ++ ds)) := by
    simp [List.append_assoc]
  rw [hassoc, dropPre_append]
  have hsplit : chars " FAIL res=" ++ ds = ' ' :: (chars "FAIL res=" ++ ds) := rfl
  have hstop : (n ++ (chars " FAIL res=" ++ ds)).takeWhile identChar = n := by
    rw [hsplit]
    exact takeWhile_append_stop identChar n ' ' (chars "FAIL res=" ++ ds) hid (by decide)
  have hdrop : (n ++ (chars " FAIL res=" ++ ds)).dropWhile identChar
      = chars " FAIL res=" ++ ds := by
    rw [hsplit]
    exact dropWhile_append_stop identChar n ' ' (chars "FAIL res=" ++ ds) hid (by decide)
  simp only [hstop, hdrop]
  rw [if_neg hne]
  have hpass : dropPre (chars " PASS") (chars " FAIL res=" ++ ds) = none := rfl
  have hfail : dropPre (chars " FAIL") (chars " FAIL res=" ++ ds)
      = some (chars " res=" ++ ds) := by
    have h1 : chars " FAIL res=" ++ ds = chars " FAIL" ++ (chars " res=" ++ ds) := by
      simp [chars, List.append_assoc]
    rw [h1]
    exact dropPre_append _ _
  rw [hpass, hfail]
  have hopt : optRes (chars " res=" ++ ds) = chars " res=" ++ ds := by
    unfold optRes
    rw [dropPre_append]
    show (if ds.takeWhile Char.isDigit = [] then []
      else chars " res=" ++ ds.takeWhile Char.isDigit) = chars " res=" ++ ds
    rw [takeWhile_eq_self_of_all _ _ hds, if_neg hdne]
  show some (n, false, optRes (chars " res=" ++ ds)) = some (n, false, chars " res=" ++ ds)
  rw [hopt]

theorem getExitStatus_res (ds : List Char) (hne : ds ≠ []) (hds : ds.all Char.isDigit = true)
    (hv : digitsVal ds ≤ kMaxInt) :
    getExitStatus (chars " res=" ++ ds) = Except.ok (Int.ofNat (digitsVal ds)) := by
  unfold getExitStatus
  rw [if_neg (by simp [chars])]
  have hr2 : resAt (chars "res=" ++ ds) = some ds := by
    unfold resAt
    rw [dropPre_append]
    show (if ds.takeWhile Char.isDigit = [] then none
      else some (ds.takeWhile Char.isDigit)) = some ds
    rw [takeWhile_eq_self_of_all _ _ hds, if_neg hne]
  have hfind : findRes (chars " res=" ++ ds) = some ds := by
    have step1 : findRes (chars " res=" ++ ds)
        = match resAt (chars " res=" ++ ds) with
          | some d => some d
          | none => findRes (chars "res=" ++ ds) := rfl
    have hr1 : resAt (chars " res=" ++ ds) = none := rfl
    rw [step1, hr1]
    show findRes (chars "res=" ++ ds) = some ds
    have step2 : findRes (chars "res=" ++ ds)
        = match resAt (chars "res=" ++ ds) with
          | some d => some d
          | none => findRes (chars "es=" ++ ds) := rfl
    rw [step2, hr2]
  rw [hfind]
  show atoiDigits ds = Except.ok (Int.ofNat (digitsVal ds))
  unfold atoiDigits
  rw [if_pos hv]

theorem announce_ne_literal (l : List Char) (ha : announceMatch l = true) :
    l ≠ chars kRunningLiteral := by
  intro he
  rw [he] at ha
  exact absurd ha (by decide)

theorem status_ne_literal (l : List Char) (m : List Char × Bool × List Char)
    (hst : findStatus l = some m) : l ≠ chars kRunningLiteral := by
  intro he
  rw [he] at hst
  have hnone : findStatus (chars kRunningLiteral) = none := by decide
  rw [hnone] at hst
  exact Option.noConfusion hst

theorem processLine_announce (i : String) (s : ParseState) (l : String)
    (ha : announceMatch (trimSpace l.data) = true) :
    processLine i s l = (⟨1, s.results, s.current, s.nbFromRegex, s.nbFromLine⟩, none) := by
  unfold processLine
  rw [if_pos ha]
  unfold resolveHash
  rw [if_neg (by decide : ¬((1 : Int) = 0)), if_neg (announce_ne_literal _ ha)]
  unfold openResolved
  rw [if_pos rfl]

theorem processLine_hashLine_open (i : String) (s : ParseState) (l : String) (g : List Char)
    (hluh : s.linesUntilHash = 1)
    (hna : announceMatch (trimSpace l.data) = false)
    (hst : findStatus (trimSpace l.data) = none)
    (hg : hashCapture (trimSpace l.data) = some g) (hgne : g ≠ [])
    (hlook : lookupCR s.results (String.mk g) = none) :
    processLine i s l = (⟨0, s.results ++ [(String.mk g, ⟨String.mk g, []⟩)],
      some (String.mk g), s.nbFromRegex + 1, s.nbFromLine⟩, none) := by
  simp only [processLine, hna, hst, hluh]
  norm_num
  unfold resolveHash
  rw [if_pos rfl, hg]
  show openResolved g 0 s.results s.current (s.nbFromRegex + 1) s.nbFromLine = _
  unfold openResolved
  rw [if_neg hgne, hlook]
  simp

theorem processLine_hashLine_dup (i : String) (s : ParseState) (l : String) (g : List Char)
    (hluh : s.linesUntilHash = 1)
    (hna : announceMatch (trimSpace l.data) = false)
    (hst : findStatus (trimSpace l.data) = none)
    (hg : hashCapture (trimSpace l.data) = some g) (hgne : g ≠ [])
    (hlook : (lookupCR s.results (String.mk g)).isSome = true) :
    processLine i s l = (⟨0, s.results, s.current, s.nbFromRegex + 1, s.nbFromLine⟩,
      some (ScanError.duplicateCommit (String.mk g))) := by
  simp only [processLine, hna, hst, hluh]
  norm_num
  unfold resolveHash
  rw [if_pos rfl, hg]
  show openResolved g 0 s.results s.current (s.nbFromRegex + 1) s.nbFromLine = _
  unfold openResolved
  rw [if_neg hgne, if_pos hlook]

theorem processLine_status_open (i : String) (s : ParseState) (l : String)
    (nm : List Char) (ps : Bool) (g3 : List Char) (es : Int) (h : String)
    (hna : announceMatch (trimSpace l.data) = false)
    (hst : findStatus (trimSpace l.data) = some (nm, ps, g3))
    (hes : getExitStatus g3 = Except.ok es)
    (hcur : s.current = some h)
    (hluh : s.linesUntilHash ≠ 1) :
    processLine i s l =
      (⟨s.linesUntilHash - 1, appendStep s.results h ⟨String.mk nm, ps, es⟩,
        some h, s.nbFromRegex, s.nbFromLine⟩, none) := by
  simp only [processLine, hna, hst, hes, hcur]
  simp only [Bool.false_eq_true, if_false]
  unfold resolveHash
  rw [if_neg (by omega : ¬(s.linesUntilHash - 1 = 0)),
    if_neg (status_ne_literal _ _ hst)]
  unfold openResolved
  rw [if_pos rfl]

theorem processLine_status_noRevision (i : String) (s : ParseState) (l : String)
    (nm : List Char) (ps : Bool) (g3 : List Char) (es : Int)
    (hna : announceMatch (trimSpace l.data) = false)
    (hst : findStatus (trimSpace l.data) = some (nm, ps, g3))
    (hes : getExitStatus g3 = Except.ok es)
    (hcur : s.current = none) :
    processLine i s l =
      (⟨s.linesUntilHash - 1, s.results, s.current, s.nbFromRegex, s.nbFromLine⟩,
        some ScanError.resultBeforeHash) := by
  simp only [processLine, hna, hst, hes, hcur]
  simp

theorem processLine_literal_first (i : String) (s : ParseState) (l : String)
    (hlit : trimSpace l.data = chars kRunningLiteral)
    (hluh : s.linesUntilHash ≠ 1)
    (hR : s.nbFromRegex = 0) (hL : s.nbFromLine = 0)
    (hine : i.data ≠ [])
    (hlook : lookupCR s.results (String.mk i.data) = none) :
    processLine i s l = (⟨s.linesUntilHash - 1,
      s.results ++ [(String.mk i.data, ⟨String.mk i.data, []⟩)],
      some (String.mk i.data), 0, 1⟩, none) := by
  have hna : announceMatch (chars kRunningLiteral) = false := by decide
  have hst : findStatus (chars kRunningLiteral) = none := by decide
  unfold processLine
  rw [hlit]
  rw [if_neg (show ¬(announceMatch (chars kRunningLiteral) = true) by rw [hna]; simp)]
  rw [hst]
  show resolveHash i (chars kRunningLiteral) (s.linesUntilHash - 1) s.results s.current
    s.nbFromRegex s.nbFromLine = _
  unfold resolveHash
  rw [if_neg (by omega : ¬(s.linesUntilHash - 1 = 0)), if_pos rfl, hR, hL]
  rw [if_pos (And.intro rfl rfl : (0 : Nat) = 0 ∧ (0 : Nat) = 0)]
  unfold openResolved
  rw [if_neg hine, hlook]
  simp

theorem processLine_literal_later (i : String) (s : ParseState) (l : String)
    (hlit : trimSpace l.data = chars kRunningLiteral)
    (hluh : s.linesUntilHash ≠ 1)
    (hcount : ¬(s.nbFromRegex = 0 ∧ s.nbFromLine = 0)) :
    processLine i s l = (⟨s.linesUntilHash - 1, s.results, s.current,
      s.nbFromRegex, s.nbFromLine + 1⟩, none) := by
  have hna : announceMatch (chars kRunningLiteral) = false := by decide
  have hst : findStatus (chars kRunningLiteral) = none := by decide
  unfold processLine
  rw [hlit]
  rw [if_neg (show ¬(announceMatch (chars kRunningLiteral) = true) by rw [hna]; simp)]
  rw [hst]
  show resolveHash i (chars kRunningLiteral) (s.linesUntilHash - 1) s.results s.current
    s.nbFromRegex s.nbFromLine = _
  unfold resolveHash
  rw [if_neg (by omega : ¬(s.linesUntilHash - 1 = 0)), if_pos rfl, if_neg hcount]
  unfold openResolved
  rw [if_pos rfl]

/-- The keys of the commit_results map, in insertion order. -/
def keys (rs : List (String × CommitResult)) : List String := rs.map Prod.fst

theorem appendStep_keys (rs : List (String × CommitResult)) (h : String) (st : StepResult) :
    keys (appendStep rs h st) = keys rs := by
  unfold keys appendStep
  rw [List.map_map]
  apply List.map_congr_left
  intro p _
  by_cases hp : p.1 = h <;> simp [hp]

theorem lookupCR_none_not_mem (rs : List (String × CommitResult)) (h : String)
    (hl : (lookupCR rs h).isSome = false) : h ∉ keys rs := by
  intro hmem
  unfold keys at hmem
  rcases List.mem_map.mp hmem with ⟨p, hp, hfst⟩
  have hs : (lookupCR rs h).isSome = true :=
    List.find?_isSome.mpr ⟨p, hp, by simp [hfst]⟩
  rw [hs] at hl
  exact Bool.noConfusion hl

theorem openResolved_nodup (g : List Char) (luh : Int)
    (results : List (String × CommitResult)) (current : Option String) (nbR nbL : Nat)
    (hn : (keys results).Nodup) :
    (keys ((openResolved g luh results current nbR nbL).1.results)).Nodup := by
  unfold openResolved
  by_cases hg : g = []
  · rw [if_pos hg]
    exact hn
  · rw [if_neg hg]
    by_cases hl : (lookupCR results (String.mk g)).isSome = true
    · rw [if_pos hl]
      exact hn
    · rw [if_neg hl]
      have hnm : String.mk g ∉ keys results :=
        lookupCR_none_not_mem _ _ (by simpa using hl)
      show (keys (results ++ [(String.mk g, ⟨String.mk g, []⟩)])).Nodup
      unfold keys
      rw [List.map_append, List.nodup_append]
      refine ⟨hn, by simp, ?_⟩
      intro a ha hb
      simp only [List.map_cons, List.map_nil, List.mem_singleton] at hb
      subst hb
      exact hnm ha

theorem resolveHash_nodup (i : String) (line : List Char) (luh : Int)
    (results : List (String × CommitResult)) (current : Option String) (nbR nbL : Nat)
    (hn : (keys results).Nodup) :
    (keys ((resolveHash i line luh results current nbR nbL).1.results)).Nodup := by
  unfold resolveHash
  by_cases h0 : luh = 0
  · rw [if_pos h0]
    cases hc : hashCapture line with
    | none => exact hn
    | some g => exact openResolved_nodup g luh results current (nbR + 1) nbL hn
  · rw [if_neg h0]
    by_cases hlit : line = chars kRunningLiteral
    · rw [if_pos hlit]
      exact openResolved_nodup _ luh results current nbR (nbL + 1) hn
    · rw [if_neg hlit]
      exact openResolved_nodup [] luh results current nbR nbL hn

theorem processLine_nodup (i : String) (s : ParseState) (l : String)
    (hn : (keys s.results).Nodup) :
    (keys ((processLine i s l).1.results)).Nodup := by
  simp only [processLine]
  repeat' split
  all_goals first
    | exact hn
    | exact resolveHash_nodup _ _ _ _ _ _ _ hn
    | (apply resolveHash_nodup
       rw [appendStep_keys]
       exact hn)

theorem runScanner_nodup (i : String) (s : ParseState) (ls : List String)
    (hn : (keys s.results).Nodup) :
    (keys ((runScanner i s ls).1.results)).Nodup := by
  induction ls generalizing s with
  | nil => exact hn
  | cons l ls ih =>
    have h1 := processLine_nodup i s l hn
    show (keys ((match processLine i s l with
      | (s1, none) => runScanner i s1 ls
      | (s1, some e) => (s1, some e)).1.results)).Nodup
    rcases hp : processLine i s l with ⟨s1, e⟩
    rw [hp] at h1
    cases e with
    | none => exact ih s1 h1
    | some er => exact h1

theorem run_false_of_scanError (steps : List String) (e : Env) (er : ScanError)
    (h : (scanResultOf e).2 = some er) : (runBisectModel steps e).1 = false := by
  have hs : (scanResultOf e).2.isSome = true := by rw [h]; rfl
  unfold runBisectModel
  by_cases h1 : e.repoExists = false
  · rw [if_pos h1]
  · rw [if_neg h1]
    by_cases h2 : steps = []
    · rw [if_pos h2]
    · rw [if_neg h2]
      by_cases h3 : steps.all stepNameValid = false
      · rw [if_pos h3]
      · rw [if_neg h3]
        by_cases h4 : e.mkdirOk = false
        · rw [if_pos h4]
        · rw [if_neg h4]
          by_cases h5 : e.copyOk = false
          · rw [if_pos h5]
          · rw [if_neg h5]
            by_cases h6 : e.tmpfileOk = false
            · rw [if_pos h6]
            · rw [if_neg h6]
              by_cases h7 : e.scriptWriteOk = false
              · rw [if_pos h7]
              · rw [if_neg h7]
                by_cases h8 : e.resetOk = false
                · rw [if_pos h8]
                · rw [if_neg h8]
                  by_cases h9 : e.startOk = false
                  · rw [if_pos h9]
                  · rw [if_neg h9]
                    by_cases h10 : e.goodOk = false
                    · rw [if_pos h10]
                    · rw [if_neg h10]
                      by_cases h11 : e.badOk = false
                      · rw [if_pos h11]
                      · rw [if_neg h11]
                        by_cases h12 : revParseFailed e = true
                        · rw [if_pos h12]
                        · rw [if_neg h12]
                          by_cases h13 : e.wrapperWriteOk = false
                          · rw [if_pos h13]
                          · rw [if_neg h13]
                            by_cases h14 : e.pipeOk = false
                            · rw [if_pos h14]
                            · rw [if_neg h14]
                              by_cases h15 : e.childStartOk = false
                              · rw [if_pos h15]
                              · rw [if_neg h15, if_pos hs]

theorem waitFailed_false_iff (e : Env) : waitFailed e = false ↔ e.childExit = some 0 := by
  unfold waitFailed
  cases hce : e.childExit with
  | none => simp
  | some n =>
    cases n with
    | zero => simp
    | succ m => simp

theorem run_reached_teardown (steps : List String) (e : Env)
    (h1 : e.repoExists = true) (h2 : steps ≠ []) (h3 : steps.all stepNameValid = true)
    (h4 : e.mkdirOk = true) (h5 : e.copyOk = true) (h6 : e.tmpfileOk = true)
    (h7 : e.scriptWriteOk = true) (h8 : e.resetOk = true) (h9 : e.startOk = true)
    (h10 : e.goodOk = true) (h11 : e.badOk = true)
    (h12 : revParseFailed e = false) :
    Ev.teardownReset ∈ (runBisectModel steps e).2 := by
  unfold runBisectModel
  rw [if_neg (by simp [h1]), if_neg h2, if_neg (by simp [h3]), if_neg (by simp [h4]),
    if_neg (by simp [h5]), if_neg (by simp [h6]), if_neg (by simp [h7]), if_neg (by simp [h8]),
    if_neg (by simp [h9]), if_neg (by simp [h10]), if_neg (by simp [h11]),
    if_neg (by simp [h12])]
  by_cases h13 : e.wrapperWriteOk = false
  · rw [if_pos h13]
    decide
  · rw [if_neg h13]
    by_cases h14 : e.pipeOk = false
    · rw [if_pos h14]
      decide
    · rw [if_neg h14]
      by_cases h15 : e.childStartOk = false
      · rw [if_pos h15]
        decide
      · rw [if_neg h15]
        by_cases h16 : (scanResultOf e).2.isSome = true
        · rw [if_pos h16]
          decide
        · rw [if_neg h16]
          by_cases h17 : waitFailed e = true
          · rw [if_pos h17]
            decide
          · rw [if_neg h17]
            decide

theorem run_success_iff (steps : List String) (e : Env)
    (h1 : e.repoExists = true) (h2 : steps ≠ []) (h3 : steps.all stepNameValid = true)
    (h4 : e.mkdirOk = true) (h5 : e.copyOk = true) (h6 : e.tmpfileOk = true)
    (h7 : e.scriptWriteOk = true) (h8 : e.resetOk = true) (h9 : e.startOk = true)
    (h10 : e.goodOk = true) (h11 : e.badOk = true)
    (h12 : revParseFailed e = false)
    (h13 : e.wrapperWriteOk = true) (h14 : e.pipeOk = true) (h15 : e.childStartOk = true)
    (hscan : (scanResultOf e).2 = none) :
    ((runBisectModel steps e).1 = true ↔ e.childExit = some 0) := by
  unfold runBisectModel
  rw [if_neg (by simp [h1]), if_neg h2, if_neg (by simp [h3]), if_neg (by simp [h4]),
    if_neg (by simp [h5]), if_neg (by simp [h6]), if_neg (by simp [h7]), if_neg (by simp [h8]),
    if_neg (by simp [h9]), if_neg (by simp [h10]), if_neg (by simp [h11]),
    if_neg (by simp [h12]), if_neg (by simp [h13]), if_neg (by simp [h14]),
    if_neg (by simp [h15]), if_neg (by rw [hscan]; simp)]
  by_cases hw : waitFailed e = true
  · rw [if_pos hw]
    have hnz : ¬(e.childExit = some 0) := by
      intro hc
      rw [(waitFailed_false_iff e).mpr hc] at hw
      exact Bool.noConfusion hw
    simp [hnz]
  · rw [if_neg hw]
    have hz : e.childExit = some 0 :=
      (waitFailed_false_iff e).mp (by simpa using hw)
    simp [hz]

theorem passMarker_data (n : String) :
    (passMarker n).data = chars "xbisect step=" ++ n.data ++ chars " PASS" := by
  simp [passMarker, chars, String.data_append]

theorem failMarker_data (n res : String) :
    (failMarker n res).data
      = chars "xbisect step=" ++ n.data ++ chars " FAIL res=" ++ res.data := by
  simp [failMarker, chars, String.data_append]

theorem trim_passMarker (n : String) :
    trimSpace (chars "xbisect step=" ++ n.data ++ chars " PASS")
      = chars "xbisect step=" ++ n.data ++ chars " PASS" := by
  apply trimSpace_eq_self
  · intro c hc
    have hx : chars "xbisect step=" ++ n.data ++ chars " PASS"
        = 'x' :: (chars "bisect step=" ++ (n.data ++ chars " PASS")) := by
      simp [chars]
    rw [hx, List.head?_cons] at hc
    injection hc with hc
    subst hc
    decide
  · intro c hc
    rw [List.append_assoc,
      List.getLast?_append_of_ne_nil _ (show n.data ++ chars " PASS" ≠ [] by simp [chars]),
      List.getLast?_append_of_ne_nil _ (show chars " PASS" ≠ [] by simp [chars])] at hc
    have hS : (chars " PASS").getLast? = some 'S' := rfl
    rw [hS] at hc
    injection hc with hc
    subst hc
    decide

theorem trim_failMarker (n : String) (ds : List Char) (hdne : ds ≠ [])
    (hds : ds.all Char.isDigit = true) :
    trimSpace (chars "xbisect step=" ++ n.data ++ chars " FAIL res=" ++ ds)
      = chars "xbisect step=" ++ n.data ++ chars " FAIL res=" ++ ds := by
  apply trimSpace_eq_self
  · intro c hc
    have hx : chars "xbisect step=" ++ n.data ++ chars " FAIL res=" ++ ds
        = 'x' :: (chars "bisect step=" ++ (n.data ++ (chars " FAIL res=" ++ ds))) := by
      simp [chars]
    rw [hx, List.head?_cons] at hc
    injection hc with hc
    subst hc
    decide
  · intro c hc
    rw [List.getLast?_append_of_ne_nil _ hdne] at hc
    have hmem : c ∈ ds := by
      have h1 : c ∈ ds.getLast? := by rw [Option.mem_def, hc]
      rcases List.mem_getLast?_eq_getLast h1 with ⟨hne2, heq⟩
      rw [heq]
      exact List.getLast_mem hne2
    exact digit_not_space c (by
      rw [List.all_eq_true] at hds
      exact hds c hmem)

/-- C1: for every input stream consisting of exactly one
progress-announcement line, then a matching bracket revision line with a
non-empty capture, then two status-marker lines, the scanner produces
exactly one CommitResult, keyed by the captured hash, holding exactly
the two StepResults in the order the markers appeared. -/
theorem c1_round_trip (i : String) (l1 l2 l3 l4 : String) (h : List Char)
    (n1 : List Char) (p1 : Bool) (g1 : List Char) (e1 : Int)
    (n2 : List Char) (p2 : Bool) (g2 : List Char) (e2 : Int)
    (ha1 : announceMatch (trimSpace l1.data) = true)
    (ha2 : announceMatch (trimSpace l2.data) = false)
    (hs2 : findStatus (trimSpace l2.data) = none)
    (hg2 : hashCapture (trimSpace l2.data) = some h) (hne : h ≠ [])
    (ha3 : announceMatch (trimSpace l3.data) = false)
    (hs3 : findStatus (trimSpace l3.data) = some (n1, p1, g1))
    (he3 : getExitStatus g1 = Except.ok e1)
    (ha4 : announceMatch (trimSpace l4.data) = false)
    (hs4 : findStatus (trimSpace l4.data) = some (n2, p2, g2))
    (he4 : getExitStatus g2 = Except.ok e2) :
    runScanner i initState [l1, l2, l3, l4]
      = (⟨-2, [(String.mk h, ⟨String.mk h,
          [⟨String.mk n1, p1, e1⟩, ⟨String.mk n2, p2, e2⟩]⟩)],
          some (String.mk h), 1, 0⟩, none) := by
  have st1 : processLine i initState l1 = (⟨1, [], none, 0, 0⟩, none) :=
    processLine_announce i initState l1 ha1
  have st2 : processLine i ⟨1, [], none, 0, 0⟩ l2
      = (⟨0, [(String.mk h, ⟨String.mk h, []⟩)], some (String.mk h), 1, 0⟩, none) := by
    have h2 := processLine_hashLine_open i ⟨1, [], none, 0, 0⟩ l2 h rfl ha2 hs2 hg2 hne rfl
    simpa using h2
  have st3 : processLine i ⟨0, [(String.mk h, ⟨String.mk h, []⟩)], some (String.mk h), 1, 0⟩ l3
      = (⟨-1, [(String.mk h, ⟨String.mk h, [⟨String.mk n1, p1, e1⟩]⟩)],
          some (String.mk h), 1, 0⟩, none) := by
    have h3 := processLine_status_open i
      ⟨0, [(String.mk h, ⟨String.mk h, []⟩)], some (String.mk h), 1, 0⟩ l3
      n1 p1 g1 e1 (String.mk h) ha3 hs3 he3 rfl (show (0 : Int) ≠ 1 by decide)
    simpa [appendStep] using h3
  have st4 : processLine i
      ⟨-1, [(String.mk h, ⟨String.mk h, [⟨String.mk n1, p1, e1⟩]⟩)], some (String.mk h), 1, 0⟩ l4
      = (⟨-2, [(String.mk h, ⟨String.mk h, [⟨String.mk n1, p1, e1⟩, ⟨String.mk n2, p2, e2⟩]⟩)],
          some (String.mk h), 1, 0⟩, none) := by
    have h4 := processLine_status_open i
      ⟨-1, [(String.mk h, ⟨String.mk h, [⟨String.mk n1, p1, e1⟩]⟩)], some (String.mk h), 1, 0⟩ l4
      n2 p2 g2 e2 (String.mk h) ha4 hs4 he4 rfl (show (-1 : Int) ≠ 1 by decide)
    simpa [appendStep] using h4
  simp only [runScanner, st1, st2, st3, st4]

/-- Witness: C1 instantiated at a concrete four-line stream. -/
theorem c1_round_trip_witness :
    runScanner "ini" initState
      ["Bisecting: 1 revision left to test after this (roughly 1 step)",
       "[abc] commit msg",
       "xbisect step=build PASS",
       "xbisect step=test FAIL res=1"]
      = (⟨-2, [(String.mk (chars "abc"), ⟨String.mk (chars "abc"),
          [⟨String.mk (chars "build"), true, 0⟩, ⟨String.mk (chars "test"), false, 1⟩]⟩)],
          some (String.mk (chars "abc")), 1, 0⟩, none) :=
  c1_round_trip "ini"
    "Bisecting: 1 revision left to test after this (roughly 1 step)"
    "[abc] commit msg"
    "xbisect step=build PASS"
    "xbisect step=test FAIL res=1"
    (chars "abc") (chars "build") true [] 0 (chars "test") false (chars " res=1") 1
    (by decide) (by decide) (by decide) (by decide) (by decide)
    (by decide) (by decide) rfl (by decide) (by decide) rfl

/-- C4: when a revision line would open a hash that is already a key of
the result map, the scanner stops with the duplicate-revision error, the
map (and so the existing CommitResult) is left exactly as it was, and a
run whose child stream produced that error reports failure. -/
theorem c4_duplicate_revision (i : String) (pre : List String) (l : String)
    (rest : List String) (s : ParseState) (g : List Char)
    (hpre : runScanner i initState pre = (s, none))
    (hluh : s.linesUntilHash = 1)
    (hna : announceMatch (trimSpace l.data) = false)
    (hst : findStatus (trimSpace l.data) = none)
    (hg : hashCapture (trimSpace l.data) = some g) (hgne : g ≠ [])
    (hlook : (lookupCR s.results (String.mk g)).isSome = true) :
    runScanner i initState (pre ++ l :: rest)
      = (⟨0, s.results, s.current, s.nbFromRegex + 1, s.nbFromLine⟩,
          some (ScanError.duplicateCommit (String.mk g)))
    ∧ ∀ (steps : List String) (e : Env),
        (scanResultOf e).2 = some (ScanError.duplicateCommit (String.mk g)) →
        (runBisectModel steps e).1 = false := by
  constructor
  · rw [runScanner_append, hpre]
    show runScanner i s (l :: rest) = _
    have hdup := processLine_hashLine_dup i s l g hluh hna hst hg hgne hlook
    simp only [runScanner, hdup]
  · intro steps e he
    exact run_false_of_scanError steps e _ he

/-- Witness: C4 at the concrete stream that announces the same bracket
line twice. -/
theorem c4_duplicate_revision_witness :
    runScanner "ini" initState
      (["Bisecting: 2 revisions left to test after this (roughly 1 step)",
        "[abc] m",
        "Bisecting: 1 revision left to test after this (roughly 1 step)"] ++
        "[abc] m" :: [])
      = (⟨0, [(String.mk (chars "abc"), ⟨String.mk (chars "abc"), []⟩)],
          some (String.mk (chars "abc")), 1 + 1, 0⟩,
          some (ScanError.duplicateCommit (String.mk (chars "abc"))))
    ∧ ∀ (steps : List String) (e : Env),
        (scanResultOf e).2 = some (ScanError.duplicateCommit (String.mk (chars "abc"))) →
        (runBisectModel steps e).1 = false :=
  c4_duplicate_revision "ini"
    ["Bisecting: 2 revisions left to test after this (roughly 1 step)",
     "[abc] m",
     "Bisecting: 1 revision left to test after this (roughly 1 step)"]
    "[abc] m" []
    ⟨1, [(String.mk (chars "abc"), ⟨String.mk (chars "abc"), []⟩)],
      some (String.mk (chars "abc")), 1, 0⟩
    (chars "abc")
    (by decide) rfl (by decide) (by decide) (by decide) (by decide) (by decide)

theorem announce_false_of_x (t : List Char) : announceMatch ('x' :: t) = false := rfl

theorem findStatus_passMarker (n : String) (hn : n.data ≠ [])
    (hid : n.data.all identChar = true) :
    findStatus (chars "xbisect step=" ++ n.data ++ chars " PASS")
      = some (n.data, true, []) := by
  have hsa := statusAt_passMarker n.data hn hid
  have hx : chars "xbisect step=" ++ n.data ++ chars " PASS"
      = 'x' :: (chars "bisect step=" ++ (n.data ++ chars " PASS")) := by
    simp [chars]
  rw [hx] at hsa ⊢
  exact findStatus_of_statusAt _ _ _ hsa

theorem findStatus_failMarker (n : String) (ds : List Char) (hn : n.data ≠ [])
    (hid : n.data.all identChar = true) (hdne : ds ≠ [])
    (hds : ds.all Char.isDigit = true) :
    findStatus (chars "xbisect step=" ++ n.data ++ chars " FAIL res=" ++ ds)
      = some (n.data, false, chars " res=" ++ ds) := by
  have hsa := statusAt_failMarker n.data ds hn hid hdne hds
  have hx : chars "xbisect step=" ++ n.data ++ chars " FAIL res=" ++ ds
      = 'x' :: (chars "bisect step=" ++ (n.data ++ (chars " FAIL res=" ++ ds))) := by
    simp [chars]
  rw [hx] at hsa ⊢
  exact findStatus_of_statusAt _ _ _ hsa

/-- C5: a wrapper-emitted status marker line (the step-marker format) is
parsed into a StepResult and appended to the currently open
CommitResult; if no CommitResult is open when such a line arrives the
scanner stops with the result-before-revision error, and a run whose
child stream produced that error reports failure. -/
theorem c5_marker_append_or_error (i : String) (s : ParseState) (n : String) (ds : List Char)
    (hn : n.data ≠ []) (hid : n.data.all identChar = true)
    (hdne : ds ≠ []) (hds : ds.all Char.isDigit = true) (hv : digitsVal ds ≤ kMaxInt)
    (hluh : s.linesUntilHash ≠ 1) :
    (∀ h : String, s.current = some h →
      processLine i s (passMarker n)
        = (⟨s.linesUntilHash - 1, appendStep s.results h ⟨n, true, 0⟩,
            some h, s.nbFromRegex, s.nbFromLine⟩, none)
      ∧ processLine i s (failMarker n (String.mk ds))
        = (⟨s.linesUntilHash - 1,
            appendStep s.results h ⟨n, false, Int.ofNat (digitsVal ds)⟩,
            some h, s.nbFromRegex, s.nbFromLine⟩, none))
    ∧ (s.current = none →
      processLine i s (passMarker n)
        = (⟨s.linesUntilHash - 1, s.results, s.current, s.nbFromRegex, s.nbFromLine⟩,
            some ScanError.resultBeforeHash))
    ∧ (∀ (steps : List String) (e : Env),
        (scanResultOf e).2 = some ScanError.resultBeforeHash →
        (runBisectModel steps e).1 = false) := by
  have hptrim : trimSpace (passMarker n).data
      = chars "xbisect step=" ++ n.data ++ chars " PASS" := by
    rw [passMarker_data]
    exact trim_passMarker n
  have hxp : chars "xbisect step=" ++ n.data ++ chars " PASS"
      = 'x' :: (chars "bisect step=" ++ (n.data ++ chars " PASS")) := by
    simp [chars]
  have hpann : announceMatch (trimSpace (passMarker n).data) = false := by
    rw [hptrim, hxp]
    exact announce_false_of_x _
  have hpst : findStatus (trimSpace (passMarker n).data) = some (n.data, true, []) := by
    rw [hptrim]
    exact findStatus_passMarker n hn hid
  have hfdata : (failMarker n (String.mk ds)).data
      = chars "xbisect step=" ++ n.data ++ chars " FAIL res=" ++ ds := by
    rw [failMarker_data]
  have hftrim : trimSpace (failMarker n (String.mk ds)).data
      = chars "xbisect step=" ++ n.data ++ chars " FAIL res=" ++ ds := by
    rw [hfdata]
    exact trim_failMarker n ds hdne hds
  have hxf : chars "xbisect step=" ++ n.data ++ chars " FAIL res=" ++ ds
      = 'x' :: (chars "bisect step=" ++ (n.data ++ (chars " FAIL res=" ++ ds))) := by
    simp [chars]
  have hfann : announceMatch (trimSpace (failMarker n (String.mk ds)).data) = false := by
    rw [hftrim, hxf]
    exact announce_false_of_x _
  have hfst : findStatus (trimSpace (failMarker n (String.mk ds)).data)
      = some (n.data, false, chars " res=" ++ ds) := by
    rw [hftrim]
    exact findStatus_failMarker n ds hn hid hdne hds
  have hfes : getExitStatus (chars " res=" ++ ds) = Except.ok (Int.ofNat (digitsVal ds)) :=
    getExitStatus_res ds hdne hds hv
  refine ⟨?_, ?_, ?_⟩
  · intro h hcur
    constructor
    · exact processLine_status_open i s (passMarker n) n.data true [] 0 h
        hpann hpst rfl hcur hluh
    · exact processLine_status_open i s (failMarker n (String.mk ds)) n.data false
        (chars " res=" ++ ds) (Int.ofNat (digitsVal ds)) h hfann hfst hfes hcur hluh
  · intro hcur
    exact processLine_status_noRevision i s (passMarker n) n.data true [] 0
      hpann hpst rfl hcur
  · intro steps e he
    exact run_false_of_scanError steps e _ he

/-- Witness: C5 applied at a concrete open-revision state and at a
concrete state with no open revision. -/
theorem c5_marker_append_or_error_witness :
    processLine "ini" (⟨0, [("abc", ⟨"abc", []⟩)], some "abc", 1, 0⟩ : ParseState)
        (passMarker "build")
      = (⟨0 - 1, appendStep [("abc", ⟨"abc", []⟩)] "abc" ⟨"build", true, 0⟩,
          some "abc", 1, 0⟩, none)
    ∧ processLine "ini" (⟨0, [], none, 0, 0⟩ : ParseState) (passMarker "build")
      = (⟨0 - 1, [], none, 0, 0⟩, some ScanError.resultBeforeHash) := by
  constructor
  · exact ((c5_marker_append_or_error "ini" ⟨0, [("abc", ⟨"abc", []⟩)], some "abc", 1, 0⟩
      "build" ['7'] (by decide) (by decide) (by decide) (by decide) (by decide)
      (by decide)).1 "abc" rfl).1
  · exact (c5_marker_append_or_error "ini" ⟨0, [], none, 0, 0⟩
      "build" ['7'] (by decide) (by decide) (by decide) (by decide) (by decide)
      (by decide)).2.1 rfl

/-- C9: a request containing a step name rejected by the validation
pattern makes RunBisect return false with an empty action trace: no
staging, no session command, no launch, regardless of every other
outcome in the environment. -/
theorem c9_invalid_step_no_spawn (steps : List String) (e : Env) (s : String)
    (hmem : s ∈ steps) (hbad : stepNameValid s = false) :
    runBisectModel steps e = (false, []) := by
  have hne : steps ≠ [] := by
    intro h0
    rw [h0] at hmem
    exact absurd hmem (List.not_mem_nil s)
  have hall : steps.all stepNameValid = false := by
    cases hq : steps.all stepNameValid
    · rfl
    · rw [List.all_eq_true] at hq
      have hq2 := hq s hmem
      rw [hbad] at hq2
      exact Bool.noConfusion hq2
  unfold runBisectModel
  by_cases h1 : e.repoExists = false
  · rw [if_pos h1]
  · rw [if_neg h1, if_neg hne, if_pos hall]

/-- Witness: C9 at a concrete request whose step name holds a space,
against an environment in which every external operation would
succeed. -/
theorem c9_invalid_step_no_spawn_witness :
    runBisectModel ["a b"]
      ⟨true, true, true, true, true, true, true, true, true,
        some "x", true, true, true, [], some 0⟩ = (false, []) :=
  c9_invalid_step_no_spawn ["a b"]
    ⟨true, true, true, true, true, true, true, true, true,
      some "x", true, true, true, [], some 0⟩
    "a b" (by decide) (by decide)

/-- C10: a line whose status match is FAIL with the optional res group
absent is accepted by the parser, appending a StepResult with pass =
false and exit status 0 to the open CommitResult, and the reporter
labels that step FAIL and never SKIP, because 0 is not the reserved
skip code 125. -/
theorem c10_fail_without_res (i : String) (s : ParseState) (l : String)
    (nm : List Char) (h : String)
    (hna : announceMatch (trimSpace l.data) = false)
    (hst : findStatus (trimSpace l.data) = some (nm, false, []))
    (hcur : s.current = some h) (hluh : s.linesUntilHash ≠ 1) :
    processLine i s l
      = (⟨s.linesUntilHash - 1, appendStep s.results h ⟨String.mk nm, false, 0⟩,
          some h, s.nbFromRegex, s.nbFromLine⟩, none)
    ∧ success_log ⟨String.mk nm, false, 0⟩
        = kFontBold ++ kColorRed ++ "FAIL" ++ kConsoleReset
    ∧ success_log ⟨String.mk nm, false, 0⟩
        ≠ kFontBold ++ kColorGray ++ "SKIP" ++ kConsoleReset := by
  refine ⟨?_, ?_, ?_⟩
  · exact processLine_status_open i s l nm false [] 0 h hna hst rfl hcur hluh
  · simp [success_log, kBisectSkipCode]
  · simp [success_log, kBisectSkipCode]
    decide

/-- Witness: C10 at a concrete bare FAIL marker line. -/
theorem c10_fail_without_res_witness :
    processLine "ini" (⟨0, [("abc", ⟨"abc", []⟩)], some "abc", 1, 0⟩ : ParseState)
        "xbisect step=a FAIL"
      = (⟨0 - 1, appendStep [("abc", ⟨"abc", []⟩)] "abc"
          ⟨String.mk (chars "a"), false, 0⟩, some "abc", 1, 0⟩, none)
    ∧ success_log ⟨String.mk (chars "a"), false, 0⟩
        = kFontBold ++ kColorRed ++ "FAIL" ++ kConsoleReset
    ∧ success_log ⟨String.mk (chars "a"), false, 0⟩
        ≠ kFontBold ++ kColorGray ++ "SKIP" ++ kConsoleReset :=
  c10_fail_without_res "ini" ⟨0, [("abc", ⟨"abc", []⟩)], some "abc", 1, 0⟩
    "xbisect step=a FAIL" (chars "a") "abc"
    (by decide) (by decide) rfl (by decide)

/-- Counterexample to C3 as stated: after an announced bracket line with
an empty capture ("[] x"), no revision has been opened by any mechanism
(the result set is still empty), yet the first occurrence of the literal
line opens nothing, because the code guards on the parse counters - the
empty-capture parse already bumped nb_commit_parse_from_regex - not on
whether a revision is open. -/
theorem c3_literal_guard_cex :
    (runScanner "deadbeef" initState
      ["Bisecting: 1 revision left to test after this (roughly 1 step)",
        "[] x"]).1.results = []
    ∧ runScanner "deadbeef" initState
      ["Bisecting: 1 revision left to test after this (roughly 1 step)",
        "[] x",
        "Running bisect on current hash"]
      = (⟨-1, [], none, 1, 1⟩, none) := by
  decide

/-- C3 amended: the literal line opens a CommitResult carrying the
pre-resolved initial hash exactly when both parse counters are zero (no
bracket hash line parsed and no earlier literal seen), the result set is
empty, and the pre-resolved hash is non-empty; an occurrence when a
counter is already nonzero leaves the result map and the open-revision
pointer unchanged and opens nothing. -/
theorem c3_literal_open (i : String) (s : ParseState)
    (hluh : s.linesUntilHash ≠ 1) :
    ((s.nbFromRegex = 0 ∧ s.nbFromLine = 0 ∧ s.results = [] ∧ i.data ≠ []) →
      processLine i s kRunningLiteral
        = (⟨s.linesUntilHash - 1, [(i, ⟨i, []⟩)], some i, 0, 1⟩, none))
    ∧ (¬(s.nbFromRegex = 0 ∧ s.nbFromLine = 0) →
      processLine i s kRunningLiteral
        = (⟨s.linesUntilHash - 1, s.results, s.current,
            s.nbFromRegex, s.nbFromLine + 1⟩, none)) := by
  have hlit : trimSpace (kRunningLiteral : String).data = chars kRunningLiteral := by decide
  constructor
  · rintro ⟨hR, hL, hres, hine⟩
    have hmain := processLine_literal_first i s kRunningLiteral hlit hluh hR hL hine
      (by rw [hres]; rfl)
    rw [hres] at hmain
    simpa using hmain
  · intro hc
    exact processLine_literal_later i s kRunningLiteral hlit hluh hc

/-- Witness: C3 amended at a concrete fresh state (opens the initial
hash) and at a state whose regex counter is already nonzero (opens
nothing). -/
theorem c3_literal_open_witness :
    processLine "deadbeef" (⟨0, [], none, 0, 0⟩ : ParseState) kRunningLiteral
      = (⟨0 - 1, [("deadbeef", ⟨"deadbeef", []⟩)], some "deadbeef", 0, 1⟩, none)
    ∧ processLine "deadbeef" (⟨0, [], none, 1, 0⟩ : ParseState) kRunningLiteral
      = (⟨0 - 1, [], none, 1, 0 + 1⟩, none) :=
  ⟨(c3_literal_open "deadbeef" ⟨0, [], none, 0, 0⟩ (by decide)).1
      ⟨rfl, rfl, rfl, by decide⟩,
   (c3_literal_open "deadbeef" ⟨0, [], none, 1, 0⟩ (by decide)).2 (by decide)⟩

/-- The environment of the C6 counterexample: staging, the bisect reset
and the bisect start all succeed, then marking the good endpoint
fails. -/
def c6CexEnv : Env :=
  ⟨true, true, true, true, true, true, true, false, true, some "abc",
    true, true, true, [], some 0⟩

/-- Counterexample to C6 as stated: marking the low endpoint fails after
the session was started (git bisect start succeeded), and the run
reports failure without ever executing the bisect-reset teardown - the
deferred reset is registered only after endpoint marking and the
rev-parse succeed, not the instant the session starts. -/
theorem c6_teardown_cex :
    runBisectModel ["build"] c6CexEnv
      = (false, [Ev.mkdirCache, Ev.copyRepo, Ev.chmodScript, Ev.gitReset,
          Ev.gitStart, Ev.gitGood])
    ∧ Ev.gitStart ∈ (runBisectModel ["build"] c6CexEnv).2
    ∧ Ev.teardownReset ∉ (runBisectModel ["build"] c6CexEnv).2 := by
  decide

/-- C6 amended: the teardown reset is scheduled once the four session
commands and the rev-parse of the starting hash have succeeded, and
from that point it runs on every exit path: wrapper-write failure, pipe
failure, launch failure, parse failure, wait failure, and success. -/
theorem c6_teardown_after_session_phase (steps : List String) (e : Env)
    (h1 : e.repoExists = true) (h2 : steps ≠ []) (h3 : steps.all stepNameValid = true)
    (h4 : e.mkdirOk = true) (h5 : e.copyOk = true) (h6 : e.tmpfileOk = true)
    (h7 : e.scriptWriteOk = true) (h8 : e.resetOk = true) (h9 : e.startOk = true)
    (h10 : e.goodOk = true) (h11 : e.badOk = true)
    (h12 : revParseFailed e = false) :
    Ev.teardownReset ∈ (runBisectModel steps e).2 :=
  run_reached_teardown steps e h1 h2 h3 h4 h5 h6 h7 h8 h9 h10 h11 h12

/-- The environment of the C6 witness: the run reaches the bisect phase
and then the wait on the child fails; the teardown still runs. -/
def c6OkEnv : Env :=
  ⟨true, true, true, true, true, true, true, true, true, some "abc",
    true, true, true, ["Running bisect on current hash"], some 1⟩

/-- Witness: C6 amended at a concrete environment whose child exits
nonzero. -/
theorem c6_teardown_after_session_phase_witness :
    Ev.teardownReset ∈ (runBisectModel ["build"] c6OkEnv).2 :=
  c6_teardown_after_session_phase ["build"] c6OkEnv
    (by decide) (by decide) (by decide) (by decide) (by decide) (by decide)
    (by decide) (by decide) (by decide) (by decide) (by decide) (by decide)

/-- The environment of the C7 counterexample: every setup step succeeds,
the child stream parses cleanly (one revision, one passing step), and
the child exits with status 1. -/
def c7CexEnv : Env :=
  ⟨true, true, true, true, true, true, true, true, true, some "abc",
    true, true, true,
    ["Running bisect on current hash", "xbisect step=build PASS"], some 1⟩

/-- Counterexample to C7 as stated: the stream was fully consumed and
parsed successfully, yet the child's nonzero exit status alone makes the
run report failure, because cmd.Wait returns an ExitError for any
nonzero exit and RunBisect returns false when Wait errors. -/
theorem c7_wait_cex :
    (scanResultOf c7CexEnv).2 = none
    ∧ c7CexEnv.childExit = some 1
    ∧ (runBisectModel ["build"] c7CexEnv).1 = false := by
  decide

/-- C7 amended: once the setup phase succeeded and the stream parsed
successfully, the run reports success exactly when the child exited with
status zero; any nonzero exit status makes cmd.Wait return an error and
the run report failure. -/
theorem c7_wait_gates_success (steps : List String) (e : Env)
    (h1 : e.repoExists = true) (h2 : steps ≠ []) (h3 : steps.all stepNameValid = true)
    (h4 : e.mkdirOk = true) (h5 : e.copyOk = true) (h6 : e.tmpfileOk = true)
    (h7 : e.scriptWriteOk = true) (h8 : e.resetOk = true) (h9 : e.startOk = true)
    (h10 : e.goodOk = true) (h11 : e.badOk = true)
    (h12 : revParseFailed e = false)
    (h13 : e.wrapperWriteOk = true) (h14 : e.pipeOk = true) (h15 : e.childStartOk = true)
    (hscan : (scanResultOf e).2 = none) :
    ((runBisectModel steps e).1 = true ↔ e.childExit = some 0) :=
  run_success_iff steps e h1 h2 h3 h4 h5 h6 h7 h8 h9 h10 h11 h12 h13 h14 h15 hscan

/-- The environment of the C7 witness: as the counterexample environment
but with a clean zero exit. -/
def c7OkEnv : Env :=
  ⟨true, true, true, true, true, true, true, true, true, some "abc",
    true, true, true,
    ["Running bisect on current hash", "xbisect step=build PASS"], some 0⟩

/-- Witness: C7 amended at a concrete environment. -/
theorem c7_wait_gates_success_witness :
    ((runBisectModel ["build"] c7OkEnv).1 = true ↔ c7OkEnv.childExit = some 0) :=
  c7_wait_gates_success ["build"] c7OkEnv
    (by decide) (by decide) (by decide) (by decide) (by decide) (by decide)
    (by decide) (by decide) (by decide) (by decide) (by decide) (by decide)
    (by decide) (by decide) (by decide) (by decide)

/-- C8: the generated wrapper script runs the steps in order; a step
whose verification exits zero prints the PASS marker and the wrapper
continues to the next step; the first step whose verification exits
nonzero prints the FAIL marker with res=<status> and the wrapper
terminates immediately with that same status, so later steps never
run. -/
theorem c8_wrapper_steps :
    (∀ steps : List (String × Nat), (∀ p ∈ steps, p.2 = 0) →
      runWrapper steps = (steps.map (fun p => passMarker p.1), 0, steps.map Prod.fst))
    ∧ (∀ (pre : List (String × Nat)) (s : String) (r : Nat) (post : List (String × Nat)),
        (∀ p ∈ pre, p.2 = 0) → r ≠ 0 →
        runWrapper (pre ++ (s, r) :: post)
          = (pre.map (fun p => passMarker p.1) ++ [failMarker s (toString r)], r,
              pre.map Prod.fst ++ [s])) := by
  constructor
  · intro steps hall
    induction steps with
    | nil => rfl
    | cons p rest ih =>
      have hp : p.2 = 0 := hall p (List.mem_cons_self p rest)
      have hrest := ih (fun q hq => hall q (List.mem_cons_of_mem p hq))
      rcases p with ⟨nm, r⟩
      simp only at hp
      subst hp
      simp [runWrapper, hrest]
  · intro pre s r post hall hr
    induction pre with
    | nil => simp [runWrapper, hr]
    | cons p rest ih =>
      have hp : p.2 = 0 := hall p (List.mem_cons_self p rest)
      have hrest := ih (fun q hq => hall q (List.mem_cons_of_mem p hq))
      rcases p with ⟨nm, r0⟩
      simp only at hp
      subst hp
      simp [runWrapper, hrest]

/-- Witness: C8 at an all-pass step list and at a list whose second step
fails with status 2. -/
theorem c8_wrapper_steps_witness :
    runWrapper [("a", 0), ("b", 0)] = ([passMarker "a", passMarker "b"], 0, ["a", "b"])
    ∧ runWrapper [("a", 0), ("b", 2), ("c", 0)]
      = ([passMarker "a", failMarker "b" (toString 2)], 2, ["a", "b"]) := by
  constructor
  · have hc8 := c8_wrapper_steps.1 [("a", 0), ("b", 0)] (by decide)
    simpa using hc8
  · have hc8 := c8_wrapper_steps.2 [("a", 0)] "b" 2 [("c", 0)] (by decide) (by decide)
    simpa using hc8

/-- The two-revision stream of the C2 counterexample. -/
def c2CexLines : List String :=
  ["Bisecting: 2 revisions left to test after this (roughly 1 step)",
   "[aaa] m",
   "xbisect step=s PASS",
   "Bisecting: 1 revision left to test after this (roughly 1 step)",
   "[bbb] m",
   "xbisect step=t PASS"]

/-- Counterexample to C2 as stated: the reporter iterates the Go map
commit_results with range, whose order is unspecified, so the reversed
enumeration of the final entries is an admissible iteration order; under
it the revisions are reported in the opposite of the order they were
opened during the stream, refuting the insertion-order part of the
claim. -/
theorem c2_insertion_order_cex :
    ((runScanner "ini" initState c2CexLines).1.results).reverse.Perm
        ((runScanner "ini" initState c2CexLines).1.results)
    ∧ keys ((runScanner "ini" initState c2CexLines).1.results)
        = [String.mk (chars "aaa"), String.mk (chars "bbb")]
    ∧ (reportLines (((runScanner "ini" initState c2CexLines).1.results).reverse)).map
        (fun t => t.1)
        = [String.mk (chars "bbb"), String.mk (chars "aaa")] := by
  decide

/-- C2 amended: on every scan the final result map is a genuine mapping -
each revision identifier is a key exactly once (no merge, no overwrite) -
and the reporter emits, under any enumeration the Go map range may
produce (any permutation of the entries), exactly the report lines of
the insertion-order enumeration up to permutation; the emission order
itself is unspecified. -/
theorem c2_mapping_complete (i : String) (lines : List String) :
    (keys ((runScanner i initState lines).1.results)).Nodup
    ∧ ∀ (enum entries : List (String × CommitResult)), enum.Perm entries →
        (reportLines enum).Perm (reportLines entries) := by
  constructor
  · exact runScanner_nodup i initState lines (by decide)
  · intro enum entries hp
    exact hp.flatMap_right reportEntryLines

/-- Witness: C2 amended at a concrete stream and a concrete transposed
enumeration. -/
theorem c2_mapping_complete_witness :
    (keys ((runScanner "ini" initState
      ["Running bisect on current hash", "xbisect step=build PASS"]).1.results)).Nodup
    ∧ (reportLines [("b", ⟨"b", [⟨"t", true, 0⟩]⟩), ("a", ⟨"a", [⟨"s", true, 0⟩]⟩)]).Perm
        (reportLines [("a", ⟨"a", [⟨"s", true, 0⟩]⟩), ("b", ⟨"b", [⟨"t", true, 0⟩]⟩)]) :=
  ⟨(c2_mapping_complete "ini"
      ["Running bisect on current hash", "xbisect step=build PASS"]).1,
   (c2_mapping_complete "ini" []).2
      [("b", ⟨"b", [⟨"t", true, 0⟩]⟩), ("a", ⟨"a", [⟨"s", true, 0⟩]⟩)]
      [("a", ⟨"a", [⟨"s", true, 0⟩]⟩), ("b", ⟨"b", [⟨"t", true, 0⟩]⟩)]
      (by decide)⟩
